import Mathlib

/-!
Verification of the core relay and session-lifecycle logic of the
`ssh-test` port-forwarder repository, as a shallow embedding in Lean.

The repository contains four near-duplicate binaries (`ssh2-rs`, `russh`,
`async-ssh2-lite`, `ssh_tunnel`) plus a shared `common` library.  The
functions embedded here are:

* `read_buf_bytes` (common/src/lib.rs:63-85, and verbatim copies in
  ssh2-rs/src/main.rs:24-49, russh/src/main.rs:54-76,
  async-ssh2-lite/src/main.rs:40-65).  The copies differ only in the
  crate-level `BUFFER_SIZE` constant, so the embedding takes the buffer
  size as an explicit first argument.
* `read_stream` (ssh2-rs/src/main.rs:53-74, russh/src/main.rs:79-100,
  async-ssh2-lite/src/main.rs:68-89) and `read_channel`
  (ssh2-rs/src/main.rs:77-101) — the same loop reading chunks until a
  zero-length or short read.
* `handle_req` of ssh2-rs (main.rs:104-136) and of russh
  (main.rs:137-191), embedded as I/O-event-trace producers.
* `listen_on_forwarded_port` of ssh2-rs (main.rs:139-171) and of russh
  (main.rs:194-228).
* `create_ssh_session` and `run` of async-ssh2-lite (main.rs:146-171,
  223-265).
* the shared shutdown `AtomicBool` (ssh2-rs/src/main.rs:180-187,
  async-ssh2-lite/src/main.rs:237-262).
* `expand_home_dir` (common/src/lib.rs:15-31).

Bytes are modelled as `Nat`, byte buffers as `List Nat`.  A function
that can panic in Rust (out-of-bounds slice, `unwrap`) returns `Option`,
with `none` standing for the panic.  An input stream is modelled by the
list of chunks its successive successful reads deliver, the list ending
at end-of-stream (a further read returns zero bytes).
-/

namespace PortForward

/-- BUFFER_SIZE of common/src/lib.rs line 13 and russh/src/main.rs line 51. -/
def BUFFER_SIZE : Nat := 16384

/-- BUFFER_SIZE of ssh2-rs/src/main.rs line 21. -/
def SSH2_BUFFER_SIZE : Nat := 128

/-- BUFFER_SIZE of async-ssh2-lite/src/main.rs line 20. -/
def ASYNC_BUFFER_SIZE : Nat := 8192

/-- Embedding of `read_buf_bytes` (common/src/lib.rs:63-85; verbatim copies
in the binaries), parameterised by the crate's `BUFFER_SIZE` constant.
The Rust function mutates `full_req_len` and `full_req_buf`; here the new
values are returned together with the `bool` result.  The slice
`reader_buf[..reader_buf_len]` panics when `reader_buf_len` exceeds the
buffer's length; that panic is modelled by the `none` result. -/
def read_buf_bytes (bufSize : Nat) (full_req_len : Nat) (full_req_buf : List Nat)
    (reader_buf_len : Nat) (reader_buf : List Nat) :
    Option (Bool × Nat × List Nat) :=
  if reader_buf_len = 0 then
    some (false, full_req_len, full_req_buf)
  else
    let new_len := full_req_len + reader_buf_len
    if reader_buf_len < bufSize then
      if reader_buf_len ≤ reader_buf.length then
        some (false, new_len, full_req_buf ++ reader_buf.take reader_buf_len)
      else
        none
    else
      some (true, new_len, full_req_buf ++ reader_buf)

/-- The buffer that `stream.read(&mut buffer)` leaves behind when it reads
the chunk `c` into `let mut buffer = vec![0; bufSize]`: the first
`c.length` bytes are the chunk, the rest stay zero. -/
def readBuffer (bufSize : Nat) (c : List Nat) : List Nat :=
  c ++ List.replicate (bufSize - c.length) 0

/-- Loop body of `read_stream` (ssh2-rs/src/main.rs:57-71 and the other
variants): repeatedly read a chunk, feed it to `read_buf_bytes`, stop when
it returns `false`.  When the chunk list is exhausted the next read
returns `Ok(0)` (end-of-stream). -/
def readStreamGo (bufSize : Nat) : List (List Nat) → Nat → List Nat → Option (List Nat × Nat)
  | [], len, buf =>
    match read_buf_bytes bufSize len buf 0 (List.replicate bufSize 0) with
    | none => none
    | some (cont, len2, buf2) => if cont then none else some (buf2, len2)
  | c :: rest, len, buf =>
    match read_buf_bytes bufSize len buf c.length (readBuffer bufSize c) with
    | none => none
    | some (cont, len2, buf2) =>
      if cont then readStreamGo bufSize rest len2 buf2 else some (buf2, len2)

/-- Embedding of `read_stream` (ssh2-rs/src/main.rs:53-74,
russh/src/main.rs:79-100, async-ssh2-lite/src/main.rs:68-89): starts with
an empty accumulator and zero length and runs the read loop over the
stream's chunks.  `read_channel` (ssh2-rs/src/main.rs:77-101) is the same
loop up to a sleep between issuing and completing the read. -/
def read_stream (bufSize : Nat) (chunks : List (List Nat)) : Option (List Nat × Nat) :=
  readStreamGo bufSize chunks 0 []

/-- Helper: feeding one chunk read into `read_buf_bytes` the way
`read_stream` does never panics and keeps the length counter equal to the
buffer length. -/
theorem read_buf_bytes_chunk (bufSize len : Nat) (buf c : List Nat)
    (hinv : len = buf.length) :
    ∃ cont buf2,
      read_buf_bytes bufSize len buf c.length (readBuffer bufSize c) =
        some (cont, len + c.length, buf2) ∧ len + c.length = buf2.length := by
  by_cases h0 : c.length = 0
  · refine ⟨false, buf, ?_, ?_⟩
    · simp [read_buf_bytes, h0]
    · simpa [h0] using hinv
  · by_cases hlt : c.length < bufSize
    · refine ⟨false, buf ++ (readBuffer bufSize c).take c.length, ?_, ?_⟩
      · have hle : c.length ≤ (readBuffer bufSize c).length := by
          simp [readBuffer]
        simp [read_buf_bytes, h0, hlt, hle]
      · have htake : (readBuffer bufSize c).take c.length = c := by
          simp [readBuffer, List.take_left]
        simp [htake, hinv]
    · refine ⟨true, buf ++ readBuffer bufSize c, ?_, ?_⟩
      · simp [read_buf_bytes, h0, hlt]
      · have hsub : bufSize - c.length = 0 :=
          Nat.sub_eq_zero_of_le (Nat.le_of_not_lt hlt)
        simp [readBuffer, hsub, hinv]

/-- The read loop never panics and always returns a pair whose length
component equals the accumulated buffer's length. -/
theorem readStreamGo_len (bufSize : Nat) (chunks : List (List Nat)) :
    ∀ len buf, len = buf.length →
      ∃ buf2 len2, readStreamGo bufSize chunks len buf = some (buf2, len2) ∧
        len2 = buf2.length := by
  induction chunks with
  | nil =>
    intro len buf hinv
    refine ⟨buf, len, ?_, hinv⟩
    simp [readStreamGo, read_buf_bytes]
  | cons c rest ih =>
    intro len buf hinv
    obtain ⟨cont, buf2, heq, hlen⟩ := read_buf_bytes_chunk bufSize len buf c hinv
    cases cont with
    | false =>
      refine ⟨buf2, len + c.length, ?_, hlen⟩
      simp [readStreamGo, heq]
    | true =>
      obtain ⟨buf3, len3, heq3, hlen3⟩ := ih (len + c.length) buf2 hlen
      refine ⟨buf3, len3, ?_, hlen3⟩
      simp [readStreamGo, heq, heq3]

/-- Helper, holding unconditionally: `read_stream` always returns a pair
`(buffer, len)` with `len` equal to the buffer's length. -/
theorem read_stream_len (bufSize : Nat) (chunks : List (List Nat)) :
    ∃ buf len, read_stream bufSize chunks = some (buf, len) ∧ len = buf.length :=
  readStreamGo_len bufSize chunks 0 [] rfl

/-- C9 counterexample: under the claim's precondition
`full_req_len = full_req_buf.length` and `reader_buf_len ≤ reader_buf.length`
alone, the invariant is not preserved.  With a reader buffer one byte
longer than `BUFFER_SIZE` and `reader_buf_len = BUFFER_SIZE`, the whole
oversized buffer is appended while the counter grows only by
`BUFFER_SIZE`, so the counter no longer equals the buffer length. -/
theorem read_buf_bytes_invariant_counterexample :
    (0 = ([] : List Nat).length ∧
      BUFFER_SIZE ≤ (List.replicate (BUFFER_SIZE + 1) (0 : Nat)).length) ∧
    read_buf_bytes BUFFER_SIZE 0 [] BUFFER_SIZE (List.replicate (BUFFER_SIZE + 1) 0) =
      some (true, BUFFER_SIZE, List.replicate (BUFFER_SIZE + 1) 0) ∧
    BUFFER_SIZE ≠ (List.replicate (BUFFER_SIZE + 1) (0 : Nat)).length := by
  refine ⟨⟨rfl, ?_⟩, ?_, ?_⟩
  · rw [List.length_replicate]
    exact Nat.le_succ BUFFER_SIZE
  · rw [read_buf_bytes]
    rw [if_neg (by norm_num [BUFFER_SIZE])]
    rw [if_neg (by norm_num)]
    norm_num
  · rw [List.length_replicate]
    omega

/-- Helper for the amended C9: with a reader buffer of length exactly
`bufSize` and `reader_buf_len ≤ bufSize`, `read_buf_bytes` preserves
`full_req_len = full_req_buf.length` and increases the counter by exactly
`reader_buf_len`. -/
theorem read_buf_bytes_invariant_aux (bufSize len : Nat) (buf : List Nat)
    (n : Nat) (rbuf : List Nat)
    (hinv : len = buf.length) (hn : n ≤ bufSize) (hlen : rbuf.length = bufSize) :
    ∃ cont buf2,
      read_buf_bytes bufSize len buf n rbuf = some (cont, len + n, buf2) ∧
      len + n = buf2.length := by
  by_cases h0 : n = 0
  · refine ⟨false, buf, ?_, ?_⟩
    · simp [read_buf_bytes, h0]
    · simpa [h0] using hinv
  · by_cases hlt : n < bufSize
    · have hle : n ≤ rbuf.length := by omega
      refine ⟨false, buf ++ rbuf.take n, ?_, ?_⟩
      · simp [read_buf_bytes, h0, hlt, hle]
      · simp [hinv, List.length_take]
        omega
    · have hn' : n = bufSize := by omega
      refine ⟨true, buf ++ rbuf, ?_, ?_⟩
      · simp [read_buf_bytes, h0, hlt]
      · simp [hinv, hlen, hn']

/-- C9 as amended: with the strengthened precondition that the reader
buffer has length exactly `BUFFER_SIZE` and
`reader_buf_len ≤ BUFFER_SIZE` — which is what every caller passes, a
count returned by a read into `vec![0; BUFFER_SIZE]` — `read_buf_bytes`
preserves `full_req_len = full_req_buf.length` and increases the counter
by exactly `reader_buf_len`; consequently `read_stream` always returns a
pair `(buffer, len)` with `len` equal to the buffer's length. -/
theorem read_buf_bytes_invariant_amended :
    (∀ bufSize len (buf : List Nat) n (rbuf : List Nat),
      len = buf.length → n ≤ bufSize → rbuf.length = bufSize →
      ∃ cont buf2,
        read_buf_bytes bufSize len buf n rbuf = some (cont, len + n, buf2) ∧
        len + n = buf2.length) ∧
    (∀ bufSize chunks,
      ∃ buf len, read_stream bufSize chunks = some (buf, len) ∧ len = buf.length) :=
  ⟨read_buf_bytes_invariant_aux, read_stream_len⟩

/-- Witness for `read_buf_bytes_invariant_amended` at concrete calls. -/
theorem read_buf_bytes_invariant_amended_witness :
    (∃ cont buf2,
      read_buf_bytes 4 0 [] 2 [9, 9, 9, 9] = some (cont, 0 + 2, buf2) ∧
      0 + 2 = buf2.length) ∧
    (∃ buf len, read_stream 4 [[1]] = some (buf, len) ∧ len = buf.length) :=
  ⟨read_buf_bytes_invariant_amended.1 4 0 [] 2 [9, 9, 9, 9] rfl (by decide) (by decide),
    read_buf_bytes_invariant_amended.2 4 [[1]]⟩

/-- C10: when `reader_buf_len` does not exceed the reader buffer's length
(as for every caller, which passes the count returned by a read into a
buffer of size `BUFFER_SIZE`), the slice `reader_buf[..reader_buf_len]`
is in bounds, `read_buf_bytes` never panics (it returns `some`), and it
returns `true` — continue reading — exactly when
`reader_buf_len ≥ BUFFER_SIZE`. -/
theorem read_buf_bytes_inbounds_and_continue (len : Nat) (buf : List Nat)
    (n : Nat) (rbuf : List Nat) (h : n ≤ rbuf.length) :
    ∃ res, read_buf_bytes BUFFER_SIZE len buf n rbuf = some res ∧
      (res.1 = true ↔ BUFFER_SIZE ≤ n) := by
  by_cases h0 : n = 0
  · refine ⟨(false, len, buf), ?_, ?_⟩
    · simp [read_buf_bytes, h0]
    · simp [BUFFER_SIZE]
      omega
  · by_cases hlt : n < BUFFER_SIZE
    · refine ⟨(false, len + n, buf ++ rbuf.take n), ?_, ?_⟩
      · simp [read_buf_bytes, h0, hlt, h]
      · simp
        omega
    · refine ⟨(true, len + n, buf ++ rbuf), ?_, ?_⟩
      · simp [read_buf_bytes, h0, hlt]
      · simp
        omega

/-- Witness for `read_buf_bytes_inbounds_and_continue` at a concrete call. -/
theorem read_buf_bytes_inbounds_and_continue_witness :
    ∃ res, read_buf_bytes BUFFER_SIZE 0 [] 1 [5] = some res ∧
      (res.1 = true ↔ BUFFER_SIZE ≤ 1) :=
  read_buf_bytes_inbounds_and_continue 0 [] 1 [5] (by decide)

set_option maxRecDepth 4000 in
/-- C2: `read_stream` (instantiated at the ssh2-rs constant, as the cited
`read_stream` is) terminates at the first short read, so the accumulated
buffer is not the concatenation of all chunks delivered before
end-of-stream: a stream delivering the chunks `[7]` then `[5]` and then
EOF yields the buffer `[7]`, dropping `[5]`. -/
theorem read_stream_truncates_at_short_read :
    ∃ p, read_stream SSH2_BUFFER_SIZE [[7], [5]] = some p ∧
      p.1 ≠ List.flatten [[7], [5]] := by
  refine ⟨([7], 1), ?_, by decide⟩
  decide

/-! Trace model of the ssh2-rs relay (`handle_req`, ssh2-rs/src/main.rs:104-136).
The relay's externally visible behaviour is the sequence of I/O actions it
performs on the local stream and the channel. -/

/-- One I/O action of the ssh2-rs `handle_req` body.  `readLocal c` is a
read from the user-facing `TcpStream` delivering chunk `c` (a zero-length
chunk is the end-of-stream read); `writeChannel` is the single
`channel.write_all` of the request; `readChannel c` is a read from the
channel; `writeLocal` is the single `stream.write_all` of the response;
`channelClose` is the final `channel.close()`. -/
inductive Ev where
  | readLocal (chunk : List Nat)
  | writeChannel (data : List Nat)
  | readChannel (chunk : List Nat)
  | writeLocal (data : List Nat)
  | channelClose
  deriving DecidableEq, Repr

/-- The read loop of `read_stream` / `read_channel` again, this time also
recording one event per performed read (`mk` is the event constructor for
the endpoint being read: `Ev.readLocal` in `read_stream`,
`Ev.readChannel` in `read_channel`).  The accumulating state and the
stopping condition are exactly those of `readStreamGo`. -/
def readLoopEvGo {α : Type} (bufSize : Nat) (mk : List Nat → α) :
    List (List Nat) → Nat → List Nat → Option (List α × List Nat × Nat)
  | [], len, buf =>
    match read_buf_bytes bufSize len buf 0 (List.replicate bufSize 0) with
    | none => none
    | some (cont, len2, buf2) =>
      if cont then none else some ([mk []], buf2, len2)
  | c :: rest, len, buf =>
    match read_buf_bytes bufSize len buf c.length (readBuffer bufSize c) with
    | none => none
    | some (cont, len2, buf2) =>
      if cont then
        match readLoopEvGo bufSize mk rest len2 buf2 with
        | none => none
        | some (evs, rbuf, rlen) => some (mk c :: evs, rbuf, rlen)
      else
        some ([mk c], buf2, len2)

/-- The event-recording read loop never panics, and every event it emits
is a read event built by `mk`. -/
theorem readLoopEvGo_spec {α : Type} (bufSize : Nat) (mk : List Nat → α)
    (chunks : List (List Nat)) :
    ∀ len buf, len = buf.length →
      ∃ evs rbuf rlen,
        readLoopEvGo bufSize mk chunks len buf = some (evs, rbuf, rlen) ∧
        ∀ e ∈ evs, ∃ c, e = mk c := by
  induction chunks with
  | nil =>
    intro len buf _
    refine ⟨[mk []], buf, len, ?_, ?_⟩
    · simp [readLoopEvGo, read_buf_bytes]
    · intro e he
      simp at he
      exact ⟨[], he⟩
  | cons c rest ih =>
    intro len buf hinv
    obtain ⟨cont, buf2, heq, hlen⟩ := read_buf_bytes_chunk bufSize len buf c hinv
    cases cont with
    | false =>
      refine ⟨[mk c], buf2, len + c.length, ?_, ?_⟩
      · simp [readLoopEvGo, heq]
      · intro e he
        simp at he
        exact ⟨c, he⟩
    | true =>
      obtain ⟨evs, rbuf, rlen, heq2, hevs⟩ := ih (len + c.length) buf2 hlen
      refine ⟨mk c :: evs, rbuf, rlen, ?_, ?_⟩
      · simp [readLoopEvGo, heq, heq2]
      · intro e he
        rcases List.mem_cons.mp he with h | h
        · exact ⟨c, h⟩
        · exact hevs e h

/-- Embedding of ssh2-rs `handle_req` (ssh2-rs/src/main.rs:104-136) as the
trace of I/O actions it performs.  `openOk` is whether
`session.channel_direct_tcpip` succeeded; on failure the function panics
(`none`).  On success it (1) reads the local stream with `read_stream`,
(2) writes the accumulated request to the channel once, (3) reads the
channel with `read_channel`, (4) writes the accumulated response to the
local stream once, and (5) closes the channel.  Write errors are logged
and execution continues with the same trace, so they do not change the
event sequence. -/
def handle_req_ssh2 (openOk : Bool) (localChunks channelChunks : List (List Nat)) :
    Option (List Ev) :=
  if openOk then
    match readLoopEvGo SSH2_BUFFER_SIZE Ev.readLocal localChunks 0 [] with
    | none => none
    | some (evs1, request, req_bytes) =>
      match readLoopEvGo SSH2_BUFFER_SIZE Ev.readChannel channelChunks 0 [] with
      | none => none
      | some (evs2, response, res_bytes) =>
        some (evs1 ++ [Ev.writeChannel (request.take req_bytes)] ++ evs2 ++
          [Ev.writeLocal (response.take res_bytes), Ev.channelClose])
  else
    none

/-- C1 refutation: for every pair of input streams, the trace of the
ssh2-rs `handle_req` is a single-shot sequence — all reads of the local
stream, then the one write to the channel, then all reads of the channel,
then the one write back to the local stream — rather than two
concurrently progressing pumps. -/
theorem handle_req_single_shot (lc cc : List (List Nat)) :
    ∃ evs1 req evs2 res,
      handle_req_ssh2 true lc cc =
        some (evs1 ++ [Ev.writeChannel req] ++ evs2 ++
          [Ev.writeLocal res, Ev.channelClose]) ∧
      (∀ e ∈ evs1, ∃ c, e = Ev.readLocal c) ∧
      (∀ e ∈ evs2, ∃ c, e = Ev.readChannel c) := by
  obtain ⟨evs1, rbuf1, rlen1, heq1, h1⟩ :=
    readLoopEvGo_spec SSH2_BUFFER_SIZE Ev.readLocal lc 0 [] rfl
  obtain ⟨evs2, rbuf2, rlen2, heq2, h2⟩ :=
    readLoopEvGo_spec SSH2_BUFFER_SIZE Ev.readChannel cc 0 [] rfl
  refine ⟨evs1, rbuf1.take rlen1, evs2, rbuf2.take rlen2, ?_, h1, h2⟩
  simp [handle_req_ssh2, heq1, heq2]

/-! Trace model of the russh relay (`handle_req`, russh/src/main.rs:137-191). -/

/-- A message delivered by `channel.wait()` in the russh `handle_req`
response loop (russh/src/main.rs:162-188).  `window` stands for any
message other than `Data`, `Eof` and `Close` (hit by the catch-all arm
that only logs). -/
inductive ChMsg where
  | data (d : List Nat)
  | eof
  | close
  | window
  deriving DecidableEq, Repr

/-- One I/O action of the russh `handle_req` body.  `sendData` is
`channel.data(..)`; `sendEof` would be `channel.eof()` — the call is
present only as a comment in the source (russh/src/main.rs:154-157), so
no execution path emits it; `recvMsg` is a message obtained from
`channel.wait()`; `writeLocal` is a `write_half.write_all`. -/
inductive REv where
  | readLocal (chunk : List Nat)
  | sendData (d : List Nat)
  | sendEof
  | recvMsg (m : ChMsg)
  | writeLocal (d : List Nat)
  deriving DecidableEq, Repr

/-- The `while let Some(msg) = channel.wait()` response loop of russh
`handle_req` (russh/src/main.rs:162-188): a `Data` message is written to
the client, `Eof` and unknown messages are logged and the loop continues,
`Close` breaks the loop; when the message stream ends (`channel.wait()`
returns `None`) the loop ends.  The trace records received messages and
writes. -/
def russhResponseLoop : List ChMsg → List REv
  | [] => []
  | ChMsg.data d :: rest =>
    REv.recvMsg (ChMsg.data d) :: REv.writeLocal d :: russhResponseLoop rest
  | ChMsg.eof :: rest => REv.recvMsg ChMsg.eof :: russhResponseLoop rest
  | ChMsg.close :: _ => [REv.recvMsg ChMsg.close]
  | ChMsg.window :: rest => REv.recvMsg ChMsg.window :: russhResponseLoop rest

/-- Embedding of russh `handle_req` (russh/src/main.rs:137-191) as the
trace of its I/O actions: read the local read-half to the first
short/empty read with `read_stream`, send the accumulated request in one
`channel.data` call, then run the response loop.  No path signals EOF on
the channel. -/
def handle_req_russh (localChunks : List (List Nat)) (msgs : List ChMsg) :
    Option (List REv) :=
  match readLoopEvGo BUFFER_SIZE REv.readLocal localChunks 0 [] with
  | none => none
  | some (evs1, request, request_len) =>
    some (evs1 ++ [REv.sendData (request.take request_len)] ++ russhResponseLoop msgs)

/-- No event of the russh response loop is a channel EOF signal. -/
theorem sendEof_not_mem_russhResponseLoop (msgs : List ChMsg) :
    REv.sendEof ∉ russhResponseLoop msgs := by
  induction msgs with
  | nil => simp [russhResponseLoop]
  | cons m rest ih =>
    cases m with
    | data d => simp [russhResponseLoop, ih]
    | eof => simp [russhResponseLoop, ih]
    | close => simp [russhResponseLoop]
    | window => simp [russhResponseLoop, ih]

/-- C3 refutation: whatever the local client sends (in particular when it
closes its write side immediately after the request) and whatever the
server answers, the russh `handle_req` never signals end-of-data on the
channel: no `sendEof` event occurs in its trace, because the
`channel.eof()` call is commented out in the source. -/
theorem russh_handle_req_never_sends_channel_eof
    (localChunks : List (List Nat)) (msgs : List ChMsg) :
    ∃ evs, handle_req_russh localChunks msgs = some evs ∧ REv.sendEof ∉ evs := by
  obtain ⟨evs1, rbuf, rlen, heq, hevs⟩ :=
    readLoopEvGo_spec BUFFER_SIZE REv.readLocal localChunks 0 [] rfl
  refine ⟨evs1 ++ [REv.sendData (rbuf.take rlen)] ++ russhResponseLoop msgs, ?_, ?_⟩
  · simp [handle_req_russh, heq]
  · intro hmem
    rcases List.mem_append.mp hmem with h | h
    · rcases List.mem_append.mp h with h1 | h1
      · obtain ⟨c, hc⟩ := hevs _ h1
        cases hc
      · simp at h1
    · exact sendEof_not_mem_russhResponseLoop msgs h

/-! Acceptor models. -/

/-- An accepted connection in the russh accept loop
(russh/src/main.rs:205-227): its identifier and the result of
`channel_open_direct_tcpip` for it. -/
structure ConnAttempt where
  connId : Nat
  openResult : Except String Nat
  deriving Repr

/-- Embedding of the russh `listen_on_forwarded_port` accept loop
(russh/src/main.rs:205-227) over a finite prefix of accepted
connections.  For each connection it opens a channel under the session
lock and calls `.unwrap()` on the result: on `Ok` it spawns `handle_req`
for that connection and loops, on `Err` the unwrap panics.  Returns the
identifiers of the connections handed to a relay and whether the
acceptor task panicked (aborted).  An exhausted input list means the
loop is still alive awaiting the next accept. -/
def russhListen : List ConnAttempt → List Nat × Bool
  | [] => ([], false)
  | a :: rest =>
    match a.openResult with
    | Except.ok _ =>
      let r := russhListen rest
      (a.connId :: r.1, r.2)
    | Except.error _ => ([], true)

/-- C4 refutation: with three accepted connections whose channel-open
results are `Ok`, `Err`, `Ok`, the russh acceptor relays only the first
connection and then panics: the failure for connection 2 aborts the
acceptor and connection 3 is never served, instead of being logged and
contained to connection 2. -/
theorem russh_channel_open_failure_aborts_acceptor :
    russhListen
      [⟨1, Except.ok 10⟩, ⟨2, Except.error "channel open failed"⟩,
        ⟨3, Except.ok 11⟩] = ([1], true) := by
  rfl

/-- One iteration's inputs in the ssh2-rs accept loop
(ssh2-rs/src/main.rs:149-163): the value of `should_exit.load(SeqCst)`
observed after the listener yields, and the yielded `stream` result. -/
structure Incoming where
  flag : Bool
  stream : Except String Nat
  deriving Repr

/-- How the ssh2-rs accept loop ended. -/
inductive ListenOutcome where
  | stoppedBySignal
  | iterEnded
  | panicked (msg : String)
  deriving DecidableEq, Repr

/-- Embedding of the ssh2-rs `listen_on_forwarded_port` accept loop body
(ssh2-rs/src/main.rs:149-163) over a finite prefix of iterations.  Each
iteration clones the session, checks the shutdown flag — breaking out of
the loop if it is set, before touching the accepted stream — and
otherwise spawns `handle_req` on an `Ok` stream or panics on an `Err`.
Returns the identifiers of the streams handed to `handle_req` and the
way the loop ended. -/
def listenLoop : List Incoming → List Nat × ListenOutcome
  | [] => ([], ListenOutcome.iterEnded)
  | i :: rest =>
    if i.flag then
      ([], ListenOutcome.stoppedBySignal)
    else
      match i.stream with
      | Except.ok s =>
        let r := listenLoop rest
        (s :: r.1, r.2)
      | Except.error e => ([], ListenOutcome.panicked e)

/-- Embedding of the whole `listen_on_forwarded_port` return behaviour
(ssh2-rs/src/main.rs:139-171): after the loop ends by signal or by
iterator end the function prints and returns `Ok(())` (`some`, carrying
the handled stream ids for the statement); a panic inside the loop means
no normal return (`none`). -/
def listen_on_forwarded_port (items : List Incoming) : Option (List Nat) :=
  match listenLoop items with
  | (handled, ListenOutcome.stoppedBySignal) => some handled
  | (handled, ListenOutcome.iterEnded) => some handled
  | (_, ListenOutcome.panicked _) => none

/-- C5: if every iteration before some point observes the shutdown flag
unset and yields an `Ok` stream, and at that point the flag is observed
set, then the accept loop hands exactly the earlier streams to relays,
stops by the shutdown signal, and returns normally; no connection from
that point on — however many follow — is ever handed to a relay. -/
theorem listen_loop_stops_after_shutdown_flag
    (pre post : List Incoming) (i : Incoming)
    (hpre : ∀ x ∈ pre, x.flag = false ∧ ∃ s, x.stream = Except.ok s)
    (hi : i.flag = true) :
    listenLoop (pre ++ i :: post) =
      (pre.filterMap (fun x => x.stream.toOption), ListenOutcome.stoppedBySignal) ∧
    listen_on_forwarded_port (pre ++ i :: post) =
      some (pre.filterMap (fun x => x.stream.toOption)) := by
  have hloop : listenLoop (pre ++ i :: post) =
      (pre.filterMap (fun x => x.stream.toOption), ListenOutcome.stoppedBySignal) := by
    induction pre with
    | nil =>
      simp [listenLoop, hi]
    | cons x rest ih =>
      obtain ⟨hxf, s, hxs⟩ := hpre x (List.mem_cons_self x rest)
      have ih' := ih (fun y hy => hpre y (List.mem_cons_of_mem x hy))
      simp [listenLoop, hxf, hxs, ih', Except.toOption]
  refine ⟨hloop, ?_⟩
  simp [listen_on_forwarded_port, hloop]

/-- Witness for `listen_loop_stops_after_shutdown_flag` at a concrete
run: one connection accepted before shutdown, the flag observed set on
the next iteration, one more connection attempt afterwards. -/
theorem listen_loop_stops_after_shutdown_flag_witness :
    listenLoop [⟨false, Except.ok 5⟩, ⟨true, Except.ok 6⟩, ⟨false, Except.ok 7⟩] =
      ([5], ListenOutcome.stoppedBySignal) ∧
    listen_on_forwarded_port
      [⟨false, Except.ok 5⟩, ⟨true, Except.ok 6⟩, ⟨false, Except.ok 7⟩] = some [5] := by
  have h := listen_loop_stops_after_shutdown_flag
    [⟨false, Except.ok 5⟩] [⟨false, Except.ok 7⟩] ⟨true, Except.ok 6⟩
    (by intro x hx; simp at hx; subst hx; exact ⟨rfl, 5, rfl⟩) rfl
  simpa [Except.toOption] using h

/-! Session establishment and auth-failure containment
(async-ssh2-lite/src/main.rs:146-171 and 223-265). -/

/-- The authentication-relevant state of the transport session as the
provider reports it after `userauth_pubkey_file`: the `authenticated()`
flag and the provider's `last_error()`, if any. -/
structure SessionSt where
  authenticated : Bool
  lastErr : Option String
  deriving Repr

/-- Embedding of `create_ssh_session` (async-ssh2-lite/src/main.rs:146-171).
Inputs are the results of the provider calls it makes, in source order:
`Async::<TcpStream>::connect` and `AsyncSession::new`, whose errors
propagate through `?`; `handshake()`, whose failure panics through
`.unwrap()` (`none`); `userauth_pubkey_file`, whose error propagates
through `?`; then, if `authenticated()` is false, the function fails with
`last_error()` when present, otherwise with the generic
"unknown user auth error" diagnostic. -/
def create_ssh_session (connectRes : Except String Unit) (newRes : Except String Unit)
    (handshakeOk : Bool) (userauthRes : Except String Unit) (st : SessionSt) :
    Option (Except String SessionSt) :=
  match connectRes with
  | Except.error e => some (Except.error e)
  | Except.ok _ =>
    match newRes with
    | Except.error e => some (Except.error e)
    | Except.ok _ =>
      if handshakeOk then
        match userauthRes with
        | Except.error e => some (Except.error e)
        | Except.ok _ =>
          if st.authenticated then
            some (Except.ok st)
          else
            some (Except.error (st.lastErr.getD "unknown user auth error"))
      else
        none

/-- The observable outcome of `run` (async-ssh2-lite/src/main.rs:223-265)
with respect to the local listener: whether `run` returned an error
before spawning the forwarding thread, panicked, or went on to spawn
`local_port_forward` — the only code that binds the local listener. -/
inductive RunOutcome where
  | fatal (msg : String)
  | panicked
  | bound
  deriving DecidableEq, Repr

/-- Embedding of the session-establishment prefix of `run`
(async-ssh2-lite/src/main.rs:232-235 and onwards): a `create_ssh_session`
error is returned immediately — before the `should_exit` flag, the
channel, or the forwarding thread that binds the listener exist; only on
success does control reach `thread::spawn(.. local_port_forward ..)`,
abstracted as `bound`. -/
def run (connectRes newRes : Except String Unit) (handshakeOk : Bool)
    (userauthRes : Except String Unit) (st : SessionSt) : RunOutcome :=
  match create_ssh_session connectRes newRes handshakeOk userauthRes st with
  | none => RunOutcome.panicked
  | some (Except.error e) => RunOutcome.fatal e
  | some (Except.ok _) => RunOutcome.bound

/-- C6: when connect, session creation and handshake succeed but
authentication does not — the provider either returns an error or leaves
`authenticated()` false — `create_ssh_session` returns an authentication
error carrying the provider's diagnostic when available and the generic
"unknown user auth error" otherwise, and `run` ends fatally with that
diagnostic without ever reaching the code that binds the local
listener. -/
theorem auth_failure_never_binds (userauthRes : Except String Unit) (st : SessionSt)
    (hauth : ∀ u, userauthRes = Except.ok u → st.authenticated = false) :
    ∃ msg,
      create_ssh_session (Except.ok ()) (Except.ok ()) true userauthRes st =
        some (Except.error msg) ∧
      msg = (match userauthRes with
        | Except.error e => e
        | Except.ok _ => st.lastErr.getD "unknown user auth error") ∧
      run (Except.ok ()) (Except.ok ()) true userauthRes st = RunOutcome.fatal msg := by
  cases userauthRes with
  | error e =>
    refine ⟨e, ?_, rfl, ?_⟩
    · simp [create_ssh_session]
    · simp [run, create_ssh_session]
  | ok u =>
    have hfalse := hauth u rfl
    refine ⟨st.lastErr.getD "unknown user auth error", ?_, rfl, ?_⟩
    · simp [create_ssh_session, hfalse]
    · simp [run, create_ssh_session, hfalse]

/-- Witness for `auth_failure_never_binds`: the provider reports no
success and no diagnostic, so the generic diagnostic is used and the
listener is never bound. -/
theorem auth_failure_never_binds_witness :
    ∃ msg,
      create_ssh_session (Except.ok ()) (Except.ok ()) true (Except.ok ())
        ⟨false, none⟩ = some (Except.error msg) ∧
      msg = (match (Except.ok () : Except String Unit) with
        | Except.error e => e
        | Except.ok _ => (none : Option String).getD "unknown user auth error") ∧
      run (Except.ok ()) (Except.ok ()) true (Except.ok ()) ⟨false, none⟩ =
        RunOutcome.fatal msg :=
  auth_failure_never_binds (Except.ok ()) ⟨false, none⟩ (fun _ _ => rfl)

/-! The shared shutdown flag (ssh2-rs/src/main.rs:180-187,
async-ssh2-lite/src/main.rs:237-262). -/

/-- An operation the program performs on the shutdown `AtomicBool`.  The
only stores in the sources write `true`: the Ctrl-C handler
(ssh2-rs/src/main.rs:183) and the two `should_exit.store(true, SeqCst)`
sites of async-ssh2-lite (main.rs:251 and 261); every other access is a
`load`. -/
inductive FlagOp where
  | storeTrue
  | load
  deriving DecidableEq, Repr

/-- The flag's initial value: `AtomicBool::new(false)`
(ssh2-rs/src/main.rs:180, async-ssh2-lite/src/main.rs:237). -/
def flagInit : Bool := false

/-- Effect of one program operation on the flag. -/
def flagStep : Bool → FlagOp → Bool
  | _, FlagOp.storeTrue => true
  | b, FlagOp.load => b

/-- The flag value after a sequence of program operations, starting from
the initial value. -/
def runFlag (ops : List FlagOp) : Bool := ops.foldl flagStep flagInit

/-- Once true, the flag stays true under any further operations. -/
theorem foldl_flagStep_true (ops : List FlagOp) :
    ∀ b, b = true → ops.foldl flagStep b = true := by
  induction ops with
  | nil => intro b hb; simpa using hb
  | cons op rest ih =>
    intro b hb
    subst hb
    cases op with
    | storeTrue => exact ih (flagStep true FlagOp.storeTrue) rfl
    | load => exact ih (flagStep true FlagOp.load) rfl

/-- C7: the shutdown flag starts false, the only store the program
contains sets it to true (so repeated signals are idempotent), no
operation resets a set flag, and over every run a flag once observed true
remains true for any continuation (monotonicity). -/
theorem shutdown_flag_monotone :
    flagInit = false ∧
    (∀ b, flagStep b FlagOp.storeTrue = true) ∧
    (∀ op, flagStep true op = true) ∧
    (∀ pre suf, runFlag pre = true → runFlag (pre ++ suf) = true) := by
  refine ⟨rfl, fun b => rfl, ?_, ?_⟩
  · intro op
    cases op <;> rfl
  · intro pre suf hpre
    have : runFlag (pre ++ suf) = suf.foldl flagStep (runFlag pre) := by
      simp [runFlag, List.foldl_append]
    rw [this, hpre]
    exact foldl_flagStep_true suf true rfl

/-- Witness for `shutdown_flag_monotone`: after the Ctrl-C handler's
store the flag reads true, and still reads true after a further load. -/
theorem shutdown_flag_monotone_witness :
    flagInit = false ∧
    flagStep true FlagOp.load = true ∧
    runFlag ([FlagOp.storeTrue] ++ [FlagOp.load]) = true :=
  ⟨shutdown_flag_monotone.1,
    shutdown_flag_monotone.2.2.1 FlagOp.load,
    shutdown_flag_monotone.2.2.2 [FlagOp.storeTrue] [FlagOp.load] (by decide)⟩

/-! Home-directory expansion (`expand_home_dir`, common/src/lib.rs:15-31).
A filesystem path is modelled as its list of components, as
`Path::components` yields them (a root directory would be a leading
component that is not the string containing the tilde, so absolute paths
are covered by the not-leading-tilde case). -/

/-- Embedding of `path.starts_with("~")`: `Path::starts_with` compares
whole components, so it holds exactly when the first component is the
one-character tilde component (a component such as the string of tilde
followed by other characters does not match). -/
def path_starts_with_tilde : List String → Bool
  | [] => false
  | c :: _ => c == "~"

/-- Embedding of `path.strip_prefix("~")`: removes the leading tilde
component, failing when it is not there. -/
def path_strip_tilde : List String → Option (List String)
  | c :: rest => if c == "~" then some rest else none
  | [] => none

/-- Embedding of `expand_home_dir` (common/src/lib.rs:15-31).  `home` is
the component list of the `HOME` environment value (read lazily, only on
the tilde branch).  A path that does not start with the tilde component
is returned unchanged; otherwise the stripped remainder is joined onto
the home directory (`Path::join` of a relative path appends its
components).  The strip error branch is unreachable after the
`starts_with` test. -/
def expand_home_dir (home path : List String) : Except String (List String) :=
  if !path_starts_with_tilde path then
    Except.ok path
  else
    match path_strip_tilde path with
    | some rest => Except.ok (home ++ rest)
    | none => Except.error "strip error"

/-- C8: `expand_home_dir` maps a path whose leading component is the
tilde to the home directory joined with the remaining components, and
returns every path that does not start with a tilde component
unchanged. -/
theorem expand_home_dir_correct :
    (∀ home path, path.head? = some "~" →
      expand_home_dir home path = Except.ok (home ++ path.tail)) ∧
    (∀ home path, path.head? ≠ some "~" →
      expand_home_dir home path = Except.ok path) := by
  constructor
  · intro home path hhead
    cases path with
    | nil => simp at hhead
    | cons c rest =>
      simp at hhead
      subst hhead
      simp [expand_home_dir, path_starts_with_tilde, path_strip_tilde]
  · intro home path hhead
    cases path with
    | nil => simp [expand_home_dir, path_starts_with_tilde]
    | cons c rest =>
      simp at hhead
      simp [expand_home_dir, path_starts_with_tilde, hhead]

/-- Witness for `expand_home_dir_correct` on concrete paths: the
tilde-led path gains the home directory, the other path is unchanged. -/
theorem expand_home_dir_correct_witness :
    expand_home_dir ["home", "user"] ["~", "key"] =
      Except.ok (["home", "user"] ++ ["key"]) ∧
    expand_home_dir ["home", "user"] ["etc", "key"] =
      Except.ok ["etc", "key"] :=
  ⟨expand_home_dir_correct.1 ["home", "user"] ["~", "key"] rfl,
    expand_home_dir_correct.2 ["home", "user"] ["etc", "key"] (by decide)⟩

end PortForward
